import Mathlib

/-!
Verification of the SMTPServer repository (files `parse.py` and `sender.py`).

The development shallowly embeds the token scanner, the recursive-descent
grammar parser, the command registry and dispatch (`try_parse`), the
session driver of the server role, and the client-side reply validator
(`match_code`).  Character streams are `List Char`; the one-token
lookahead scanner is a pair of the current token and the unread rest of
the stream.  Python exceptions are modelled with `Except`; looping
constructs carry an explicit fuel argument that is always instantiated
large enough for the loop to run to completion, keeping every definition
executable by `decide`.
-/

namespace SMTPServer

/-! ## Token kinds and reply strings (parse.py, module constants) -/

def CHAR : Int := 1
def SPEC : Int := 2
def SPACE : Int := 3
def NEWLINE : Int := 4
def EOF : Int := -1
def UNREC : Int := -2

def COMMAND_UNREC : String := "500 Syntax error: command unrecognized"
def PARAM_ERROR : String := "501 Syntax error in parameters or arguments"
def OUT_OF_ORDER_ERROR : String := "503 Bad sequence of commands"

def HOST_NAME : String := "localhost"

def OK_MSG : String := "250 OK"
def ENTER_DATA_MSG : String := "354 Start mail input; end with <CRLF>.<CRLF>"
def QUIT_MSG : String := "221 localhost closing connection"
def GREETING_MSG : String := "220 localhost"

/-! ## Python string helpers

Python's `str.strip` / `str.rstrip` with no arguments remove the ASCII
whitespace characters space, tab, newline, carriage return, vertical tab
and form feed (non-ASCII Unicode whitespace is not modelled; no input the
program manipulates as a stripped line contains such characters). -/

def is_py_space (c : Char) : Bool :=
  c = ' ' ∨ c = '\t' ∨ c = '\n' ∨ c = '\x0d' ∨ c = '\x0b' ∨ c = '\x0c'

def py_strip (s : String) : String :=
  String.mk (((s.toList.dropWhile is_py_space).reverse.dropWhile is_py_space).reverse)

def py_rstrip (s : String) : String :=
  String.mk ((s.toList.reverse.dropWhile is_py_space).reverse)

/-! ## Token scanner (parse.py, class TokenScanner) -/

structure Token where
  type : Int
  spelling : Char
  deriving DecidableEq, Repr

def is_ascii (c : Char) : Bool := c.toNat < 128

def SPECIAL : List Char :=
  ['<', '>', '(', ')', '[', ']', '\\', '.', ',', ';', ':', '@', '\"']

/-- Classification of the next raw character, mirroring
`TokenScanner.read_token`: the token, and the unread remainder of the
stream.  An exhausted stream yields the `EOF` token spelled `"\0"`. -/
def read_token : List Char → Token × List Char
  | [] => (⟨EOF, '\x00'⟩, [])
  | c :: rest =>
    if c = '\t' ∨ c = ' ' then (⟨SPACE, c⟩, rest)
    else if c = '\n' then (⟨NEWLINE, c⟩, rest)
    else if c ∈ SPECIAL then (⟨SPEC, c⟩, rest)
    else if is_ascii c then (⟨CHAR, c⟩, rest)
    else (⟨UNREC, c⟩, rest)

/-- State of a `TokenScanner`: the one-token lookahead buffer `current`
and the characters not yet consumed from the underlying stream. -/
structure TokenScanner where
  current : Token
  rest : List Char
  deriving DecidableEq, Repr

/-- Construction of a `TokenScanner` over an input stream (the
constructor immediately reads the first token into `current`). -/
def mkScanner (input : List Char) : TokenScanner :=
  let tr := read_token input
  ⟨tr.1, tr.2⟩

/-- Scanner `accept`: `token_type = 0` means the kind is unconstrained
(Python's default argument `token_type=0`), `spelling = none` means the
spelling is unconstrained (Python's `spelling=None`).  On a match the
lookahead advances; on a mismatch the scanner is unchanged. -/
def TokenScanner.accept (s : TokenScanner) (token_type : Int) (spelling : Option Char) :
    Bool × TokenScanner :=
  let acceptable := true
  let acceptable := if token_type ≠ 0 ∧ token_type ≠ s.current.type then false else acceptable
  let acceptable :=
    match spelling with
    | some sp => if sp ≠ s.current.spelling then false else acceptable
    | none => acceptable
  if acceptable then (true, mkScanner s.rest) else (false, s)

/-! ## Parse failure kinds (parse.py, the ParseException hierarchy) -/

inductive ParseError
  | unrecognizedCommand
  | parameterError
  | outOfOrder
  deriving DecidableEq, Repr

def ParseError.msg : ParseError → String
  | .unrecognizedCommand => COMMAND_UNREC
  | .parameterError => PARAM_ERROR
  | .outOfOrder => OUT_OF_ORDER_ERROR

/-! ## Mailbox and mail values (parse.py, classes MailBox and Mail) -/

structure MailBox where
  user : String
  domain : String
  deriving DecidableEq, Repr

/-- Rendering of `MailBox.__str__`. -/
def MailBox.str (mb : MailBox) : String := mb.user ++ "@" ++ mb.domain

/-- Mail value.  The body is an `Option` because `parse_data_txt` can
fall off the end of its loop and return Python `None`. -/
structure Mail where
  src : MailBox
  targets : List MailBox
  text : Option String
  deriving DecidableEq, Repr

/-! ## Grammar parser (parse.py, the parse_* routines)

Each routine takes the scanner and returns either a value paired with
the advanced scanner, or the raised `ParseError`. -/

/-- Matching of a literal string character by character via scanner
`accept` (parse.py, `accept_literal_str`). -/
def accept_literal_str (s : TokenScanner) : List Char → Bool × TokenScanner
  | [] => (true, s)
  | c :: cs =>
    let r := s.accept 0 (some c)
    if r.1 then accept_literal_str r.2 cs else (false, r.2)

/-- Loop body of `parse_whitespace`: consume `SPACE` tokens while the
lookahead is a `SPACE`.  Each iteration consumes an input character (or
moves the lookahead to `EOF`), so `rest.length + 1` fuel always runs the
loop to completion. -/
def parse_whitespace_go : Nat → TokenScanner → TokenScanner
  | 0, s => s
  | fuel + 1, s =>
    if s.current.type = SPACE then parse_whitespace_go fuel (s.accept SPACE none).2
    else s

def parse_whitespace (s : TokenScanner) : Except ParseError (Unit × TokenScanner) :=
  let r := s.accept SPACE none
  if r.1 then .ok ((), parse_whitespace_go (r.2.rest.length + 1) r.2)
  else .error .parameterError

def parse_nullspace (s : TokenScanner) : Except ParseError (Unit × TokenScanner) :=
  if s.current.type = SPACE then parse_whitespace s else .ok ((), s)

/-- Loop body of `parse_string`: collect `CHAR` tokens while the
lookahead is a `CHAR`. -/
def parse_string_go : Nat → List Char → TokenScanner → List Char × TokenScanner
  | 0, acc, s => (acc, s)
  | fuel + 1, acc, s =>
    if s.current.type = CHAR then
      parse_string_go fuel (acc ++ [s.current.spelling]) (s.accept CHAR none).2
    else (acc, s)

def parse_string (s : TokenScanner) : Except ParseError (String × TokenScanner) :=
  let first := s.current.spelling
  let r := s.accept CHAR none
  if r.1 then
    let g := parse_string_go (r.2.rest.length + 1) [first] r.2
    .ok (String.mk g.1, g.2)
  else .error .parameterError

/-- Acceptance of one letter (parse.py, `accept_letter`): Python's
`str.isalpha` on a `CHAR` token (a 7-bit ASCII character) coincides with
`Char.isAlpha`. -/
def accept_letter (s : TokenScanner) : Option Char × TokenScanner :=
  if s.current.type = CHAR ∧ s.current.spelling.isAlpha then
    let c := s.current.spelling
    (some c, (s.accept CHAR (some c)).2)
  else (none, s)

def parse_letter_digit (s : TokenScanner) : Except ParseError (Char × TokenScanner) :=
  if s.current.type ≠ CHAR then .error .parameterError
  else if s.current.spelling.isAlpha ∨ s.current.spelling.isDigit then
    let c := s.current.spelling
    .ok (c, (s.accept CHAR (some c)).2)
  else .error .parameterError

/-- Loop body of `parse_letter_digit_string`.  The Python loop guard
tests `spelling.isalpha() or spelling.isdigit()` before checking the
token kind; for the tokens the scanner produces this matches
`Char.isAlpha / Char.isDigit` except on `UNREC` tokens spelling a
non-ASCII Unicode letter, where Python enters `parse_letter_digit` and
raises a parameter error while this model exits the loop — in every
caller the very next accept then fails with the same parameter error, so
the observable outcome kind is identical. -/
def parse_letter_digit_string_go :
    Nat → List Char → TokenScanner → Except ParseError (List Char × TokenScanner)
  | 0, acc, s => .ok (acc, s)
  | fuel + 1, acc, s =>
    if s.current.spelling.isAlpha ∨ s.current.spelling.isDigit then
      match parse_letter_digit s with
      | .error e => .error e
      | .ok (c, s2) => parse_letter_digit_string_go fuel (acc ++ [c]) s2
    else .ok (acc, s)

def parse_letter_digit_string (s : TokenScanner) : Except ParseError (String × TokenScanner) :=
  match parse_letter_digit s with
  | .error e => .error e
  | .ok (c, s2) =>
    if s2.current.type ≠ CHAR then .ok (String.mk [c], s2)
    else
      match parse_letter_digit_string_go (s2.rest.length + 1) [c] s2 with
      | .error e => .error e
      | .ok (cs, s3) => .ok (String.mk cs, s3)

def parse_element (s : TokenScanner) : Except ParseError (String × TokenScanner) :=
  match accept_letter s with
  | (none, _) => .error .parameterError
  | (some letter, s2) =>
    if s2.current.type ≠ CHAR then .ok (String.mk [letter], s2)
    else if s2.current.spelling.isAlpha ∨ s2.current.spelling.isDigit then
      match parse_letter_digit_string s2 with
      | .error e => .error e
      | .ok (lds, s3) => .ok (String.mk [letter] ++ lds, s3)
    else .ok (String.mk [letter], s2)

/-- Right-recursive domain rule (parse.py, `parse_domain`).  Each
recursion level consumes at least the dot and the following element's
leading letter, so `rest.length + 1` fuel suffices. -/
def parse_domain_go : Nat → TokenScanner → Except ParseError (String × TokenScanner)
  | 0, _ => .error .parameterError
  | fuel + 1, s =>
    match parse_element s with
    | .error e => .error e
    | .ok (el, s2) =>
      if s2.current.type = SPEC ∧ s2.current.spelling = '.' then
        let s3 := (s2.accept SPEC (some '.')).2
        match parse_domain_go fuel s3 with
        | .error e => .error e
        | .ok (d, s4) => .ok (el ++ "." ++ d, s4)
      else .ok (el, s2)

def parse_domain (s : TokenScanner) : Except ParseError (String × TokenScanner) :=
  parse_domain_go (s.rest.length + 1) s

def parse_mailbox (s : TokenScanner) : Except ParseError (MailBox × TokenScanner) :=
  match parse_string s with
  | .error e => .error e
  | .ok (user, s2) =>
    let r := s2.accept SPEC (some '@')
    if r.1 then
      match parse_domain r.2 with
      | .error e => .error e
      | .ok (domain, s3) => .ok (⟨user, domain⟩, s3)
    else .error .parameterError

def parse_path (s : TokenScanner) : Except ParseError (MailBox × TokenScanner) :=
  let r := s.accept SPEC (some '<')
  if r.1 then
    match parse_mailbox r.2 with
    | .error e => .error e
    | .ok (mb, s2) =>
      let r2 := s2.accept SPEC (some '>')
      if r2.1 then .ok (mb, r2.2) else .error .parameterError
  else .error .parameterError

/-- Keyword phase of `parse_mail_from_cmd`: the body of its
`try` block — the literal `MAIL`, the mandatory whitespace, and the
literal `FROM:`. -/
def parse_mail_from_cmd_keyword (s : TokenScanner) : Except ParseError TokenScanner :=
  let r1 := accept_literal_str s "MAIL".toList
  if r1.1 = false then .error .unrecognizedCommand
  else
    match parse_whitespace r1.2 with
    | .error e => .error e
    | .ok (_, s2) =>
      let r2 := accept_literal_str s2 "FROM:".toList
      if r2.1 = false then .error .unrecognizedCommand else .ok r2.2

/-- Command rule `MAIL FROM:<path>` (parse.py, `parse_mail_from_cmd`).
The `except ParseException: raise UnrecognizedCommandException()` around
the keyword phase converts any failure there into the
unrecognized-command kind. -/
def parse_mail_from_cmd (s : TokenScanner) : Except ParseError (MailBox × TokenScanner) :=
  match parse_mail_from_cmd_keyword s with
  | .error _ => .error .unrecognizedCommand
  | .ok s2 =>
    match parse_nullspace s2 with
    | .error e => .error e
    | .ok (_, s3) =>
      match parse_path s3 with
      | .error e => .error e
      | .ok (path, s4) =>
        match parse_nullspace s4 with
        | .error e => .error e
        | .ok (_, s5) =>
          let rn := s5.accept NEWLINE none
          if rn.1 = false then .error .parameterError else .ok (path, rn.2)

/-- Keyword phase of `parse_rcpt_to`: the body of its `try` block. -/
def parse_rcpt_to_keyword (s : TokenScanner) : Except ParseError TokenScanner :=
  let r1 := accept_literal_str s "RCPT".toList
  if r1.1 = false then .error .unrecognizedCommand
  else
    match parse_whitespace r1.2 with
    | .error e => .error e
    | .ok (_, s2) =>
      let r2 := accept_literal_str s2 "TO:".toList
      if r2.1 = false then .error .unrecognizedCommand else .ok r2.2

def parse_rcpt_to (s : TokenScanner) : Except ParseError (MailBox × TokenScanner) :=
  match parse_rcpt_to_keyword s with
  | .error _ => .error .unrecognizedCommand
  | .ok s2 =>
    match parse_nullspace s2 with
    | .error e => .error e
    | .ok (_, s3) =>
      match parse_path s3 with
      | .error e => .error e
      | .ok (path, s4) =>
        match parse_nullspace s4 with
        | .error e => .error e
        | .ok (_, s5) =>
          let rn := s5.accept NEWLINE none
          if rn.1 = false then .error .parameterError else .ok (path, rn.2)

def parse_data_cmd (s : TokenScanner) : Except ParseError (Unit × TokenScanner) :=
  let r1 := accept_literal_str s "DATA".toList
  if r1.1 = false then .error .unrecognizedCommand
  else
    match parse_nullspace r1.2 with
    | .error e => .error e
    | .ok (_, s2) =>
      let rn := s2.accept NEWLINE none
      if rn.1 = false then .error .parameterError else .ok ((), rn.2)

def parse_helo_cmd (s : TokenScanner) : Except ParseError (String × TokenScanner) :=
  let r1 := accept_literal_str s "HELO".toList
  if r1.1 = false then .error .unrecognizedCommand
  else
    match parse_whitespace r1.2 with
    | .error e => .error e
    | .ok (_, s2) =>
      match parse_domain s2 with
      | .error e => .error e
      | .ok (domain, s3) =>
        match parse_nullspace s3 with
        | .error e => .error e
        | .ok (_, s4) =>
          let rn := s4.accept NEWLINE none
          if rn.1 = false then .error .parameterError else .ok (domain, rn.2)

/-! ## Command registry and dispatch (parse.py, PARSERS and try_parse) -/

/-- Identities of the four registered parser routines, standing for the
Python function objects stored in `PARSERS` and in `expected` lists. -/
inductive Routine
  | mail_from
  | rcpt_to
  | data_cmd
  | helo
  deriving DecidableEq, Repr

/-- Values produced by the four routines (a parsed path, `None` from the
DATA rule, or a HELO domain string). -/
inductive ParsedValue
  | mailbox (mb : MailBox)
  | unit
  | domain (d : String)
  deriving DecidableEq, Repr

def run_routine (f : Routine) (s : TokenScanner) :
    Except ParseError (ParsedValue × TokenScanner) :=
  match f with
  | .mail_from =>
    match parse_mail_from_cmd s with
    | .error e => .error e
    | .ok (mb, s2) => .ok (.mailbox mb, s2)
  | .rcpt_to =>
    match parse_rcpt_to s with
    | .error e => .error e
    | .ok (mb, s2) => .ok (.mailbox mb, s2)
  | .data_cmd =>
    match parse_data_cmd s with
    | .error e => .error e
    | .ok (_, s2) => .ok (.unit, s2)
  | .helo =>
    match parse_helo_cmd s with
    | .error e => .error e
    | .ok (d, s2) => .ok (.domain d, s2)

/-- Registry `PARSERS`, keyed by the command's leading character.  All
four registered entries are non-null, so Python's `if f:` guard in
`try_parse` always passes for a registered character. -/
def PARSERS (c : Char) : Option Routine :=
  if c = 'M' then some .mail_from
  else if c = 'R' then some .rcpt_to
  else if c = 'D' then some .data_cmd
  else if c = 'H' then some .helo
  else none

/-- Dispatch and legality check (parse.py, `try_parse`).  Only
`ParameterErrorException` is caught around the routine invocation, so an
unrecognized-command failure raised inside the routine propagates
unchanged regardless of `expected`. -/
def try_parse (line : String) (expected : List Routine) :
    Except ParseError (Routine × ParsedValue) :=
  if py_strip line = "" then .error .unrecognizedCommand
  else
    let tok_scanner := mkScanner line.toList
    match PARSERS tok_scanner.current.spelling with
    | none => .error .unrecognizedCommand
    | some f =>
      match run_routine f tok_scanner with
      | .ok (parsed, _) =>
        if f ∈ expected then .ok (f, parsed) else .error .outOfOrder
      | .error .parameterError =>
        if f ∉ expected then .error .outOfOrder else .error .parameterError
      | .error e => .error e

/-! ## Data phase (parse.py, parse_data_txt) -/

/-- Loop of `parse_data_txt` over the remaining input lines, carrying
the accumulated body lines.  Returns the joined body (or `none` when the
line stream is exhausted before a terminator, where the Python loop
falls through and returns `None`) together with the lines left unread —
the second component models the advancing file iterator. -/
def parse_data_txt_loop (result : List String) :
    List String → Option String × List String
  | [] => (none, [])
  | line :: rest =>
    if py_rstrip line = "." then (some (String.join result), rest)
    else parse_data_txt_loop (result ++ [line]) rest

def parse_data_txt (server_in : List String) : Option String × List String :=
  parse_data_txt_loop [] server_in

/-! ## Session driver, server role (parse.py, read_next_line through
process_request) -/

/-- Ways a server session stops: an explicit `QUIT` line
(`ClientQuit`), the input stream ending (`exit(0)` on `StopIteration`),
or a non-protocol Python error caught by the generic handler in
`process_request` (such as the `TypeError` when `mail_to_string` joins a
`None` body). -/
inductive SessionEnd
  | clientQuit
  | eofExit
  | pyError
  deriving DecidableEq, Repr

/-- Result of `read_next_line`: the line read and the rest of the
stream, or the reason the read ended the session. -/
inductive ReadResult
  | eof
  | quit
  | line (l : String)
  deriving DecidableEq, Repr

def read_next_line : List String → ReadResult × List String
  | [] => (.eof, [])
  | l :: rest =>
    if py_strip l = "QUIT" then (.quit, rest) else (.line l, rest)

/-- Result of one driver routine: a value, a propagating
`ParseException`, or a session end; each carries the reply lines printed
so far (in order) and the input lines left unread. -/
inductive DriverResult (α : Type)
  | ok (v : α) (outs : List String) (rest : List String)
  | err (e : ParseError) (outs : List String) (rest : List String)
  | ended (e : SessionEnd) (outs : List String) (rest : List String)
  deriving DecidableEq, Repr

/-- The `while f == parse_rcpt_to` loop of `accept_rcpt_to`, given the
routine and value of the most recent `try_parse`.  `read_next_line` is
inlined (the empty-stream and `QUIT` cases) so that the recursion is
structural on the line stream. -/
def accept_rcpt_to_loop :
    List MailBox → Routine → ParsedValue → List String → DriverResult (List MailBox)
  | _, .rcpt_to, .mailbox _, [] => .ended .eofExit [OK_MSG] []
  | rcpts, .rcpt_to, .mailbox addr, l :: rest =>
    if py_strip l = "QUIT" then .ended .clientQuit [OK_MSG, QUIT_MSG] rest
    else
      match try_parse l [.rcpt_to, .data_cmd] with
      | .error e => .err e [OK_MSG] rest
      | .ok (f2, v2) =>
        match accept_rcpt_to_loop (rcpts ++ [addr]) f2 v2 rest with
        | .ok w outs r => .ok w (OK_MSG :: outs) r
        | .err e outs r => .err e (OK_MSG :: outs) r
        | .ended e outs r => .ended e (OK_MSG :: outs) r
  | rcpts, _, _, server_in => .ok rcpts [] server_in

def accept_rcpt_to : List String → DriverResult (List MailBox)
  | [] => .ended .eofExit [] []
  | l :: rest =>
    if py_strip l = "QUIT" then .ended .clientQuit [QUIT_MSG] rest
    else
      match try_parse l [.rcpt_to] with
      | .error e => .err e [] rest
      | .ok (f, v) => accept_rcpt_to_loop [] f v rest

/-- Driver for one mail transaction (parse.py, `accept_mail_from`,
with `accept_data_entry` inlined: the 354 prompt followed by
`parse_data_txt`).  A failure anywhere inside propagates as `err`,
abandoning the sender and recipients accumulated so far. -/
def accept_mail_from : List String → DriverResult Mail
  | [] => .ended .eofExit [] []
  | l :: rest =>
    if py_strip l = "QUIT" then .ended .clientQuit [QUIT_MSG] rest
    else
      match try_parse l [.mail_from] with
      | .error e => .err e [] rest
      | .ok (_, .mailbox from_addr) =>
        match accept_rcpt_to rest with
        | .err e outs r => .err e (OK_MSG :: outs) r
        | .ended e outs r => .ended e (OK_MSG :: outs) r
        | .ok rcpts outs r =>
          let dt := parse_data_txt r
          .ok ⟨from_addr, rcpts, dt.1⟩
            (OK_MSG :: outs ++ [ENTER_DATA_MSG] ++ [OK_MSG]) dt.2
      | .ok (_, _) =>
        -- unreachable: with expected = [mail_from], success carries a mailbox
        .ended .pyError [] rest

/-- Driver for the greeting line (parse.py, `accept_helo`). -/
def accept_helo : List String → DriverResult String
  | [] => .ended .eofExit [] []
  | l :: rest =>
    if py_strip l = "QUIT" then .ended .clientQuit [QUIT_MSG] rest
    else
      match try_parse l [.helo] with
      | .error e => .err e [] rest
      | .ok (_, .domain d) => .ok d ["250 " ++ d ++ " pleased to meet you"] rest
      | .ok (_, _) =>
        -- unreachable: with expected = [helo], success carries a domain
        .ended .pyError [] rest

/-- Rendering of a completed mail for the delivery sink (parse.py,
`mail_to_string`).  A `None` body makes Python's `"".join` raise a
`TypeError`, modelled as `none`. -/
def mail_to_string (mail : Mail) : Option String :=
  match mail.text with
  | none => none
  | some t =>
    some ("From: <" ++ mail.src.str ++ ">\n"
      ++ String.join (mail.targets.map (fun rcpt => "To: <" ++ rcpt.str ++ ">\n"))
      ++ t)

/-- The `while not helo_accepted` retry loop of `process_request`.  Each
iteration consumes at least one input line, so `length + 1` fuel always
completes the loop; `err` results are re-reported and retried in place. -/
def helo_loop : Nat → List String → DriverResult Unit
  | 0, server_in => .ended .pyError [] server_in
  | fuel + 1, server_in =>
    match accept_helo server_in with
    | .ok _ outs rest => .ok () outs rest
    | .ended e outs rest => .ended e outs rest
    | .err e outs rest =>
      match helo_loop fuel rest with
      | .ok v outs2 r => .ok v (outs ++ [e.msg] ++ outs2) r
      | .err e2 outs2 r => .err e2 (outs ++ [e.msg] ++ outs2) r
      | .ended e2 outs2 r => .ended e2 (outs ++ [e.msg] ++ outs2) r

/-- The `while True` mail loop of `process_request`: accept a
transaction, render and deliver it, report any `ParseException`, and in
either case re-enter `accept_mail_from` on the remaining lines.  Returns
the reply lines printed and how the session ended. -/
def mail_loop : Nat → List String → List String × SessionEnd
  | 0, _ => ([], .pyError)
  | fuel + 1, server_in =>
    match accept_mail_from server_in with
    | .ok mail outs rest =>
      match mail_to_string mail with
      | none => (outs, .pyError)
      | some _ =>
        let k := mail_loop fuel rest
        (outs ++ k.1, k.2)
    | .err e outs rest =>
      let k := mail_loop fuel rest
      (outs ++ [e.msg] ++ k.1, k.2)
    | .ended e outs _ => (outs, e)

/-- Whole-session server driver (parse.py, `process_request`): the 220
greeting, the HELO retry loop, then the mail loop. -/
def process_request (server_in : List String) : List String × SessionEnd :=
  match helo_loop (server_in.length + 1) server_in with
  | .ok _ outs rest =>
    let k := mail_loop (rest.length + 1) rest
    (GREETING_MSG :: (outs ++ k.1), k.2)
  | .err e outs _ => (GREETING_MSG :: (outs ++ [e.msg]), .pyError)
  | .ended e outs _ => (GREETING_MSG :: outs, e)

/-! ## Client-side reply validator (sender.py, match_code) -/

/-- Decimal value of a digit list, as Python's `int` on a string of
ASCII digits. -/
def digits_to_nat (cs : List Char) : Nat :=
  cs.foldl (fun acc c => acc * 10 + (c.toNat - 48)) 0

/-- Reply validator (sender.py, `match_code`).  The length test uses the
raw line; everything after it uses the stripped line.  Python's
`str.isdigit` and `int` also admit some non-ASCII Unicode digits, which
are not modelled (no reply line this system emits contains them).  The
`[]` branch after the separator lookup is unreachable: `r ≠ code_str`
with `code_str = r.take 3` forces a fourth character. -/
def match_code (resp : String) (code : Nat) : Bool :=
  if resp.length < 3 then false
  else
    let r := (py_strip resp).toList
    let code_str := r.take 3
    if ¬ (code_str ≠ [] ∧ code_str.all Char.isDigit) then false
    else if r = code_str then false
    else
      match r.drop 3 with
      | [] => false
      | sep :: msg =>
        if sep ≠ ' ' ∧ sep ≠ '\t' then false
        else if msg.length = 0 ∨ ¬ msg.all (fun c => c.toNat < 128) then false
        else code = digits_to_nat code_str

/-- Modelled from the spec: the reply-line shape stated in the claim —
three ASCII digits spelling `code`, then one space-or-tab separator,
then a non-empty ASCII message, and nothing else.  Used to compare
`match_code` against the claimed shape. -/
def reply_shape (s : String) (code : Nat) : Bool :=
  match s.toList with
  | d1 :: d2 :: d3 :: sep :: msg =>
    d1.isDigit && d2.isDigit && d3.isDigit
      && (digits_to_nat [d1, d2, d3] = code)
      && (sep = ' ' ∨ sep = '\t')
      && ¬ msg.isEmpty && msg.all (fun c => c.toNat < 128)
  | _ => false

/-! ## Scanner facts -/

/-- Character classification as performed by `read_token` on a
non-empty stream. -/
def classify (c : Char) : Int :=
  if c = '\t' ∨ c = ' ' then SPACE
  else if c = '\n' then NEWLINE
  else if c ∈ SPECIAL then SPEC
  else if is_ascii c then CHAR
  else UNREC

/-- Characters that `read_token` turns into a `CHAR` token: printable
ASCII outside the whitespace, newline and special sets. -/
def is_char_tok (c : Char) : Bool :=
  ¬(c = '\t' ∨ c = ' ') ∧ c ≠ '\n' ∧ c ∉ SPECIAL ∧ is_ascii c

/-- Characters accepted by `accept_letter`: a `CHAR` token whose
spelling is an ASCII letter. -/
def is_letter_char (c : Char) : Bool := is_char_tok c ∧ c.isAlpha

/-- Characters accepted by `parse_letter_digit`. -/
def is_ld_char (c : Char) : Bool := is_char_tok c ∧ (c.isAlpha ∨ c.isDigit)

/-- Streams at which the `parse_string` loop stops reading. -/
def char_stop : List Char → Prop
  | [] => True
  | c :: _ => is_char_tok c = false

/-- Streams at which the letter-digit loops stop reading. -/
def ld_stop : List Char → Prop
  | [] => True
  | c :: _ => ¬(c.isAlpha ∨ c.isDigit)

/-- Character lists generated by the `domain` grammar rule: one or more
elements (a letter followed by letters/digits) joined by single dots. -/
inductive IsDomainChars : List Char → Prop
  | single (l : Char) (lds : List Char) :
      is_letter_char l = true → (∀ c ∈ lds, is_ld_char c = true) →
      IsDomainChars (l :: lds)
  | dotted (l : Char) (lds d : List Char) :
      is_letter_char l = true → (∀ c ∈ lds, is_ld_char c = true) →
      IsDomainChars d → IsDomainChars (l :: lds ++ '.' :: d)

/-- Scanners that arise from scanning an actual character stream; every
scanner the parser manipulates has this form. -/
def SWf (s : TokenScanner) : Prop := ∃ cs, s = mkScanner cs

theorem read_token_cons (c : Char) (t : List Char) :
    read_token (c :: t) = (⟨classify c, c⟩, t) := by
  simp only [read_token, classify]
  split_ifs <;> rfl

theorem mkScanner_cons (c : Char) (t : List Char) :
    mkScanner (c :: t) = ⟨⟨classify c, c⟩, t⟩ := by
  simp [mkScanner, read_token_cons]

theorem mkScanner_nil : mkScanner [] = ⟨⟨EOF, '\x00'⟩, []⟩ := rfl

theorem mkScanner_cons_spelling (c : Char) (t : List Char) :
    (mkScanner (c :: t)).current.spelling = c := by
  rw [mkScanner_cons]

/-- Registry lookup misses exactly the characters outside
`M`, `R`, `D`, `H`. -/
theorem PARSERS_eq_none_of_unregistered (c : Char)
    (h : c ∉ (['M', 'R', 'D', 'H'] : List Char)) : PARSERS c = none := by
  simp only [List.mem_cons, List.mem_singleton, not_or] at h
  obtain ⟨h1, h2, h3, h4, _⟩ := h
  simp [PARSERS, h1, h2, h3, h4]

/-! ## C1 -/

/-- C1: for every input line and every set of expected routines, the
outcome of `try_parse` follows the fixed precedence: an
unrecognized-command failure from the dispatched routine surfaces as
`SyntaxUnrecognized` regardless of legality; otherwise a routine outside
`expected` yields `OutOfOrder` even when its parameters are malformed;
otherwise a parameter defect yields `SyntaxParamError` and a well-formed
in-sequence command yields its parsed value. -/
theorem try_parse_precedence (line : String) (expected : List Routine) (f : Routine)
    (hne : py_strip line ≠ "")
    (hf : PARSERS (mkScanner line.toList).current.spelling = some f) :
    (run_routine f (mkScanner line.toList) = .error .unrecognizedCommand →
      try_parse line expected = .error .unrecognizedCommand)
    ∧ (∀ v s2, run_routine f (mkScanner line.toList) = .ok (v, s2) → f ∉ expected →
      try_parse line expected = .error .outOfOrder)
    ∧ (run_routine f (mkScanner line.toList) = .error .parameterError → f ∉ expected →
      try_parse line expected = .error .outOfOrder)
    ∧ (run_routine f (mkScanner line.toList) = .error .parameterError → f ∈ expected →
      try_parse line expected = .error .parameterError)
    ∧ (∀ v s2, run_routine f (mkScanner line.toList) = .ok (v, s2) → f ∈ expected →
      try_parse line expected = .ok (f, v)) := by
  have hf2 : PARSERS (mkScanner line.data).current.spelling = some f := hf
  refine ⟨?_, ?_, ?_, ?_, ?_⟩
  · intro h
    have h2 : run_routine f (mkScanner line.data) = .error .unrecognizedCommand := h
    simp [try_parse, hne, hf2, h2]
  · intro v s2 h hmem
    have h2 : run_routine f (mkScanner line.data) = .ok (v, s2) := h
    simp [try_parse, hne, hf2, h2, hmem]
  · intro h hmem
    have h2 : run_routine f (mkScanner line.data) = .error .parameterError := h
    simp [try_parse, hne, hf2, h2, hmem]
  · intro h hmem
    have h2 : run_routine f (mkScanner line.data) = .error .parameterError := h
    simp [try_parse, hne, hf2, h2, hmem]
  · intro v s2 h hmem
    have h2 : run_routine f (mkScanner line.data) = .ok (v, s2) := h
    simp [try_parse, hne, hf2, h2, hmem]

theorem try_parse_precedence_witness :
    try_parse "MAIL FROM:<a@b.c>\n" [.helo] = .error .outOfOrder := by
  have h := try_parse_precedence "MAIL FROM:<a@b.c>\n" [.helo] .mail_from
    (by decide) (by rfl)
  exact h.2.1 (.mailbox ⟨"a", "b.c"⟩) (mkScanner []) (by rfl) (by decide)

/-! ## C8 -/

/-- C8: an empty or whitespace-only line, or a line whose first
character has no registry entry, is reported by `try_parse` as
`SyntaxUnrecognized` — never as a parameter error or an out-of-order
error — for every set of expected routines. -/
theorem try_parse_unregistered_prefilter (line : String) (expected : List Routine)
    (h : py_strip line = ""
      ∨ ∃ c t, line.toList = c :: t ∧ c ∉ (['M', 'R', 'D', 'H'] : List Char)) :
    try_parse line expected = .error .unrecognizedCommand := by
  rcases h with h | ⟨c, t, hl, hc⟩
  · simp [try_parse, h]
  · by_cases hne : py_strip line = ""
    · simp [try_parse, hne]
    · have hsp : (mkScanner line.data).current.spelling = c := by
        have : (mkScanner line.toList).current.spelling = c := by
          rw [hl, mkScanner_cons_spelling]
        exact this
      simp [try_parse, hne, hsp, PARSERS_eq_none_of_unregistered c hc]

theorem try_parse_unregistered_prefilter_witness :
    try_parse "@@@\n" [.mail_from, .rcpt_to, .data_cmd, .helo]
      = .error .unrecognizedCommand := by
  exact try_parse_unregistered_prefilter "@@@\n" [.mail_from, .rcpt_to, .data_cmd, .helo]
    (Or.inr ⟨'@', "@@\n".toList, by decide, by decide⟩)

/-! ## C7 -/

/-- Stripping preserves a non-whitespace head character. -/
theorem py_strip_head (l : String) (c : Char) (t : List Char)
    (hl : l.toList = c :: t) (hc : is_py_space c = false) :
    ∃ t2, (py_strip l).toList = c :: t2 := by
  have key : ∀ u : List Char, ∃ t2, ((u ++ [c]).dropWhile is_py_space).reverse = c :: t2 := by
    intro u
    induction u with
    | nil =>
      refine ⟨[], ?_⟩
      simp [List.dropWhile, hc]
    | cons a u ih =>
      by_cases ha : is_py_space a
      · simpa [List.dropWhile, ha] using ih
      · refine ⟨u.reverse ++ [a], ?_⟩
        simp [List.dropWhile, ha]

  have hdrop : l.toList.dropWhile is_py_space = c :: t := by
    rw [hl]
    simp [List.dropWhile, hc]
  unfold py_strip
  rw [hdrop]
  have : (c :: t).reverse = t.reverse ++ [c] := by simp
  rw [this]
  obtain ⟨t2, ht2⟩ := key t.reverse
  exact ⟨t2, by simp [ht2]⟩

theorem py_strip_of_head_D (l : String) (t : List Char) (hl : l.toList = 'D' :: t) :
    py_strip l ≠ "QUIT" ∧ py_strip l ≠ "" := by
  obtain ⟨t2, h⟩ := py_strip_head l 'D' t hl (by decide)
  constructor
  · intro hq
    rw [hq] at h
    simp at h
  · intro hq
    rw [hq] at h
    simp at h

/-- C7: a well-formed `DATA` command received when zero recipients have
been accepted (the first line read by `accept_rcpt_to`, directly after a
successful `MAIL FROM`) yields `OutOfOrder` — reply 503 — never a
parameter error, and the data phase is not entered (no reply at all is
emitted by `accept_rcpt_to`, in particular not the 354 prompt). -/
theorem data_with_zero_recipients_is_out_of_order
    (l : String) (rest : List String) (t : List Char) (v : Unit × TokenScanner)
    (hl : l.toList = 'D' :: t)
    (hok : parse_data_cmd (mkScanner l.toList) = .ok v) :
    accept_rcpt_to (l :: rest) = .err .outOfOrder [] rest
    ∧ ParseError.outOfOrder.msg = "503 Bad sequence of commands" := by
  obtain ⟨hq, hne⟩ := py_strip_of_head_D l t hl
  have hsp : (mkScanner l.data).current.spelling = 'D' := by
    have : (mkScanner l.toList).current.spelling = 'D' := by
      rw [hl, mkScanner_cons_spelling]
    exact this
  have hok2 : parse_data_cmd (mkScanner l.data) = .ok v := hok
  have hrun : run_routine .data_cmd (mkScanner l.data) = .ok (.unit, v.2) := by
    simp [run_routine, hok2]
  have htp : try_parse l [.rcpt_to] = .error .outOfOrder := by
    simp [try_parse, hne, hsp, PARSERS, hrun]
  constructor
  · simp [accept_rcpt_to, hq, htp]
  · rfl

theorem data_with_zero_recipients_is_out_of_order_witness :
    accept_rcpt_to ["DATA\n"] = .err .outOfOrder [] []
    ∧ ParseError.outOfOrder.msg = "503 Bad sequence of commands" := by
  exact data_with_zero_recipients_is_out_of_order "DATA\n" [] "ATA\n".toList
    ((), mkScanner []) (by decide) (by rfl)

/-! ## C3 and C10: the data phase -/

theorem parse_data_txt_loop_terminator (post : List String) :
    ∀ (pre : List String) (l : String) (acc : List String),
      (∀ x ∈ pre, py_rstrip x ≠ ".") → py_rstrip l = "." →
      parse_data_txt_loop acc (pre ++ l :: post) = (some (String.join (acc ++ pre)), post) := by
  intro pre
  induction pre with
  | nil =>
    intro l acc _ hl
    simp [parse_data_txt_loop, hl]
  | cons x pre ih =>
    intro l acc hpre hl
    have hx : py_rstrip x ≠ "." := hpre x (by simp)
    have hrec := ih l (acc ++ [x]) (fun y hy => hpre y (by simp [hy])) hl
    have hass : (acc ++ [x]) ++ pre = acc ++ (x :: pre) := by simp
    rw [hass] at hrec
    simpa [parse_data_txt_loop, hx] using hrec

/-- C3 counterexample: the line `". \n"` does not consist of exactly a
single dot, yet it terminates the data phase immediately — the body
comes back empty instead of `". \nx\n"`, because the code compares the
line's `rstrip` (not the line itself) against `"."`. -/
theorem data_phase_terminated_by_non_dot_line :
    (parse_data_txt [". \n", "x\n", ".\n"]).1 = some ""
    ∧ (". \n" : String) ≠ "." := by decide

/-- C3 (amended): every line whose trailing-whitespace-stripped content
is not `"."` is appended verbatim to the message body, and the data
phase terminates exactly at the first line whose trailing-whitespace-
stripped content equals `"."`, returning the accumulated body and
leaving the remaining lines unread. -/
theorem data_phase_terminates_at_first_rstrip_dot
    (pre : List String) (l : String) (post : List String)
    (hpre : ∀ x ∈ pre, py_rstrip x ≠ ".")
    (hl : py_rstrip l = ".") :
    parse_data_txt (pre ++ l :: post) = (some (String.join pre), post) := by
  have h := parse_data_txt_loop_terminator post pre l [] hpre hl
  simpa [parse_data_txt] using h

theorem data_phase_terminates_at_first_rstrip_dot_witness :
    parse_data_txt ["hello\n", ".\n"] = (some "hello\n", []) := by
  have h := data_phase_terminates_at_first_rstrip_dot ["hello\n"] ".\n" []
    (by decide) (by decide)
  simpa using h

theorem parse_data_txt_loop_exhausted (lines : List String) :
    ∀ acc, (∀ l ∈ lines, py_rstrip l ≠ ".") → parse_data_txt_loop acc lines = (none, []) := by
  induction lines with
  | nil => intro acc _; rfl
  | cons x rest ih =>
    intro acc h
    have hx : py_rstrip x ≠ "." := h x (by simp)
    simpa [parse_data_txt_loop, hx] using ih (acc ++ [x]) (fun y hy => h y (by simp [hy]))

/-- C10: when the data-phase line stream is exhausted before any line
whose trailing-whitespace-stripped content equals `"."`, the Python loop
of `parse_data_txt` falls through its `for` statement and returns
`None` — not the accumulated body and not an error — so a `Mail`
assembled from such a stream carries a non-string (`none`) body. -/
theorem data_phase_exhausted_returns_none (lines : List String)
    (h : ∀ l ∈ lines, py_rstrip l ≠ ".") :
    (parse_data_txt lines).1 = none := by
  simp [parse_data_txt, parse_data_txt_loop_exhausted lines [] h]

theorem data_phase_exhausted_returns_none_witness :
    (parse_data_txt ["abc\n", "def\n"]).1 = none := by
  exact data_phase_exhausted_returns_none ["abc\n", "def\n"] (by decide)

/-! ## C6: QUIT recognition -/

/-- C6 (amended): in every command-reading dialog state — awaiting the
greeting, the sender, or recipients/DATA — a line whose stripped content
is `QUIT` is recognized before grammar dispatch, produces the 221
closing reply, and terminates the session; in the data phase, however,
such a line is appended to the message body like any other line, so the
terminated state is not reachable from within the data phase by QUIT. -/
theorem quit_recognized_in_command_states (l : String) (rest acc : List String)
    (h : py_strip l = "QUIT") :
    read_next_line (l :: rest) = (.quit, rest)
    ∧ accept_helo (l :: rest) = .ended .clientQuit [QUIT_MSG] rest
    ∧ accept_mail_from (l :: rest) = .ended .clientQuit [QUIT_MSG] rest
    ∧ accept_rcpt_to (l :: rest) = .ended .clientQuit [QUIT_MSG] rest
    ∧ QUIT_MSG = "221 " ++ HOST_NAME ++ " closing connection"
    ∧ parse_data_txt_loop acc ("QUIT\n" :: rest) = parse_data_txt_loop (acc ++ ["QUIT\n"]) rest := by
  refine ⟨?_, ?_, ?_, ?_, by decide, ?_⟩
  · simp [read_next_line, h]
  · simp [accept_helo, h]
  · simp [accept_mail_from, h]
  · simp [accept_rcpt_to, h]
  · simp [parse_data_txt_loop, (by decide : py_rstrip "QUIT\n" ≠ ".")]

theorem quit_recognized_in_command_states_witness :
    accept_mail_from ["QUIT\n", "x\n"] = .ended .clientQuit [QUIT_MSG] ["x\n"] := by
  exact (quit_recognized_in_command_states "QUIT\n" ["x\n"] [] (by decide)).2.2.1

/-- C6 counterexample: a session that sends `QUIT` while inside the data
phase.  The `QUIT` line is swallowed into the message body: the session
never emits the 221 closing reply and does not end in the client-quit
state — it ends with the stream exhausted after the `"."` terminator and
a final 250. -/
theorem quit_in_data_phase_not_recognized :
    process_request
        ["HELO a.b\n", "MAIL FROM:<u@d.e>\n", "RCPT TO:<x@y.z>\n", "DATA\n", "QUIT\n", ".\n"]
      = (["220 localhost", "250 a.b pleased to meet you", "250 OK", "250 OK",
          "354 Start mail input; end with <CRLF>.<CRLF>", "250 OK"], .eofExit)
    ∧ (process_request
        ["HELO a.b\n", "MAIL FROM:<u@d.e>\n", "RCPT TO:<x@y.z>\n", "DATA\n", "QUIT\n", ".\n"]).2
        ≠ .clientQuit := by decide

/-! ## C2: failures are session-local -/

/-- C2 (amended): each of the three parse-failure kinds is reported with
its reply code and never terminates the connection.  The greeting phase
retries in place and a sender-phase failure leaves the session awaiting
a sender; but a failure while awaiting further recipients or `DATA`
aborts the transaction in progress — the already-accepted sender and
recipients are discarded and the session returns to awaiting
`MAIL FROM` (the `mail_loop` re-entered on the remaining lines). -/
theorem parse_failures_session_local :
    (∀ (fuel : Nat) (l : String) (rest : List String) (e : ParseError),
      py_strip l ≠ "QUIT" → try_parse l [.helo] = .error e →
      helo_loop (fuel + 1) (l :: rest)
        = (match helo_loop fuel rest with
            | .ok v outs r => .ok v (e.msg :: outs) r
            | .err e2 outs r => .err e2 (e.msg :: outs) r
            | .ended e2 outs r => .ended e2 (e.msg :: outs) r))
    ∧ (∀ (fuel : Nat) (l : String) (rest : List String) (e : ParseError),
      py_strip l ≠ "QUIT" → try_parse l [.mail_from] = .error e →
      mail_loop (fuel + 1) (l :: rest)
        = (e.msg :: (mail_loop fuel rest).1, (mail_loop fuel rest).2))
    ∧ (∀ (fuel : Nat) (l0 l1 : String) (rest : List String) (e : ParseError) (a : MailBox),
      py_strip l0 ≠ "QUIT" → try_parse l0 [.mail_from] = .ok (.mail_from, .mailbox a) →
      py_strip l1 ≠ "QUIT" → try_parse l1 [.rcpt_to] = .error e →
      mail_loop (fuel + 1) (l0 :: l1 :: rest)
        = (OK_MSG :: e.msg :: (mail_loop fuel rest).1, (mail_loop fuel rest).2)) := by
  refine ⟨?_, ?_, ?_⟩
  · intro fuel l rest e hq htp
    simp [helo_loop, accept_helo, hq, htp]
  · intro fuel l rest e hq htp
    simp [mail_loop, accept_mail_from, hq, htp]
  · intro fuel l0 l1 rest e a hq0 h0 hq1 h1
    simp [mail_loop, accept_mail_from, accept_rcpt_to, hq0, h0, hq1, h1]

theorem parse_failures_session_local_witness :
    mail_loop 2 ["XYZ\n", "QUIT\n"] = ([COMMAND_UNREC, QUIT_MSG], .clientQuit) := by
  have h := parse_failures_session_local.2.1 1 "XYZ\n" ["QUIT\n"]
    .unrecognizedCommand (by decide) (by rfl)
  rw [h]
  decide

/-- C2 counterexample: after `HELO`, `MAIL FROM` and one accepted
`RCPT TO`, an unparsable line arrives while the session awaits more
recipients or `DATA`.  If the session stayed in that phase with the
sender and recipient retained, the following `DATA` would be answered
with the 354 prompt; instead the transaction is abandoned, the state
resets to awaiting `MAIL FROM`, and `DATA` is answered with 503. -/
theorem recipient_phase_failure_resets_state :
    process_request
        ["HELO a.b\n", "MAIL FROM:<u@d.e>\n", "RCPT TO:<x@y.z>\n", "@@@\n", "DATA\n"]
      = (["220 localhost", "250 a.b pleased to meet you", "250 OK", "250 OK",
          "500 Syntax error: command unrecognized", "503 Bad sequence of commands"],
        .eofExit)
    ∧ ENTER_DATA_MSG ∉ (process_request
        ["HELO a.b\n", "MAIL FROM:<u@d.e>\n", "RCPT TO:<x@y.z>\n", "@@@\n", "DATA\n"]).1 := by
  decide

/-! ## C5: the client-side reply validator -/

/-- C5 counterexample: `match_code` strips the line before examining it,
so `" 250 OK"` — which has a character before the three digits and does
not have the claimed shape — is accepted; conversely `"250  \n"`, which
does have the claimed shape (digits, separator, and the non-empty ASCII
message `" \n"`), is rejected because stripping leaves only the digits. -/
theorem match_code_not_exact_shape :
    match_code " 250 OK" 250 = true
    ∧ reply_shape " 250 OK" 250 = false
    ∧ match_code "250  \n" 250 = false
    ∧ reply_shape "250  \n" 250 = true := by decide

/-- C5 (amended): `match_code resp code` returns true exactly when the
raw line has length at least 3 and the whitespace-stripped line consists
of three ASCII digits spelling `code`, then one space-or-tab separator,
then a non-empty ASCII message. -/
theorem match_code_iff_stripped_shape (resp : String) (code : Nat) :
    match_code resp code = true ↔ 3 ≤ resp.length ∧ reply_shape (py_strip resp) code = true := by
  by_cases hlen : resp.length < 3
  · have h2 : ¬ 3 ≤ resp.length := by omega
    simp [match_code, hlen, h2]
  · have hlen2 : 3 ≤ resp.length := by omega
    rcases hps : py_strip resp with ⟨r⟩
    rcases r with _ | ⟨d1, _ | ⟨d2, _ | ⟨d3, _ | ⟨sep, msg⟩⟩⟩⟩
    · simp [match_code, reply_shape, hps, hlen, hlen2]
    · simp [match_code, reply_shape, hps, hlen, hlen2]
    · simp [match_code, reply_shape, hps, hlen, hlen2]
    · simp [match_code, reply_shape, hps, hlen, hlen2]
    · simp [match_code, reply_shape, hps, hlen, hlen2]
      rw [show (code = digits_to_nat [d1, d2, d3]) ↔ (digits_to_nat [d1, d2, d3] = code) from
        eq_comm]
      tauto

/-! ## C4: keyword failures versus parameter failures

The grammar routines downstream of a matched keyword can only raise the
parameter-error kind; the following lemmas establish this for each
sub-rule. -/

theorem parse_whitespace_error (s : TokenScanner) (e : ParseError)
    (h : parse_whitespace s = .error e) : e = .parameterError := by
  simp only [parse_whitespace] at h
  split at h
  · simp at h
  · cases h
    rfl

theorem parse_nullspace_error (s : TokenScanner) (e : ParseError)
    (h : parse_nullspace s = .error e) : e = .parameterError := by
  simp only [parse_nullspace] at h
  split at h
  · exact parse_whitespace_error _ _ h
  · simp at h

theorem parse_letter_digit_error (s : TokenScanner) (e : ParseError)
    (h : parse_letter_digit s = .error e) : e = .parameterError := by
  simp only [parse_letter_digit] at h
  split at h
  · cases h; rfl
  · split at h
    · simp at h
    · cases h; rfl

theorem parse_letter_digit_string_go_error (fuel : Nat) :
    ∀ (acc : List Char) (s : TokenScanner) (e : ParseError),
      parse_letter_digit_string_go fuel acc s = .error e → e = .parameterError := by
  induction fuel with
  | zero => intro acc s e h; simp [parse_letter_digit_string_go] at h
  | succ fuel ih =>
    intro acc s e h
    simp only [parse_letter_digit_string_go] at h
    split at h
    · split at h
      · rename_i heq
        cases h
        exact parse_letter_digit_error _ _ heq
      · exact ih _ _ _ h
    · simp at h

theorem parse_letter_digit_string_error (s : TokenScanner) (e : ParseError)
    (h : parse_letter_digit_string s = .error e) : e = .parameterError := by
  simp only [parse_letter_digit_string] at h
  split at h
  · rename_i heq
    cases h
    exact parse_letter_digit_error _ _ heq
  · split at h
    · simp at h
    · split at h
      · rename_i heq
        cases h
        exact parse_letter_digit_string_go_error _ _ _ _ heq
      · simp at h

theorem parse_element_error (s : TokenScanner) (e : ParseError)
    (h : parse_element s = .error e) : e = .parameterError := by
  simp only [parse_element] at h
  split at h
  · cases h; rfl
  · split at h
    · simp at h
    · split at h
      · split at h
        · rename_i heq
          cases h
          exact parse_letter_digit_string_error _ _ heq
        · simp at h
      · simp at h

theorem parse_domain_go_error (fuel : Nat) :
    ∀ (s : TokenScanner) (e : ParseError),
      parse_domain_go fuel s = .error e → e = .parameterError := by
  induction fuel with
  | zero => intro s e h; cases h; rfl
  | succ fuel ih =>
    intro s e h
    simp only [parse_domain_go] at h
    split at h
    · rename_i heq
      cases h
      exact parse_element_error _ _ heq
    · split at h
      · split at h
        · rename_i heq
          cases h
          exact ih _ _ heq
        · simp at h
      · simp at h

theorem parse_domain_error (s : TokenScanner) (e : ParseError)
    (h : parse_domain s = .error e) : e = .parameterError :=
  parse_domain_go_error _ _ _ h

theorem parse_string_error (s : TokenScanner) (e : ParseError)
    (h : parse_string s = .error e) : e = .parameterError := by
  simp only [parse_string] at h
  split at h
  · simp at h
  · cases h; rfl

theorem parse_mailbox_error (s : TokenScanner) (e : ParseError)
    (h : parse_mailbox s = .error e) : e = .parameterError := by
  simp only [parse_mailbox] at h
  split at h
  · rename_i heq
    cases h
    exact parse_string_error _ _ heq
  · split at h
    · split at h
      · rename_i heq
        cases h
        exact parse_domain_error _ _ heq
      · simp at h
    · cases h; rfl

theorem parse_path_error (s : TokenScanner) (e : ParseError)
    (h : parse_path s = .error e) : e = .parameterError := by
  simp only [parse_path] at h
  split at h
  · split at h
    · rename_i heq
      cases h
      exact parse_mailbox_error _ _ heq
    · split at h
      · simp at h
      · cases h; rfl
  · cases h; rfl

/-- C4: for each command parser, any failure of the keyword phase — the
literal keywords together with, for `MAIL` and `RCPT`, the separator and
second literal inside the guarded `try` block — surfaces as
`SyntaxUnrecognized`, never as a parameter error; and once the keyword
phase has matched, every subsequent structural defect (missing
whitespace, malformed path or domain, missing terminating newline)
surfaces as `SyntaxParamError`, never `SyntaxUnrecognized`. -/
theorem keyword_and_parameter_failures_distinct (s : TokenScanner) :
    ((∀ e, parse_mail_from_cmd_keyword s = .error e →
        parse_mail_from_cmd s = .error .unrecognizedCommand)
      ∧ (∀ s2 e, parse_mail_from_cmd_keyword s = .ok s2 →
        parse_mail_from_cmd s = .error e → e = .parameterError))
    ∧ ((∀ e, parse_rcpt_to_keyword s = .error e →
        parse_rcpt_to s = .error .unrecognizedCommand)
      ∧ (∀ s2 e, parse_rcpt_to_keyword s = .ok s2 →
        parse_rcpt_to s = .error e → e = .parameterError))
    ∧ (((accept_literal_str s "DATA".toList).1 = false →
        parse_data_cmd s = .error .unrecognizedCommand)
      ∧ (∀ e, (accept_literal_str s "DATA".toList).1 = true →
        parse_data_cmd s = .error e → e = .parameterError))
    ∧ (((accept_literal_str s "HELO".toList).1 = false →
        parse_helo_cmd s = .error .unrecognizedCommand)
      ∧ (∀ e, (accept_literal_str s "HELO".toList).1 = true →
        parse_helo_cmd s = .error e → e = .parameterError)) := by
  refine ⟨⟨?_, ?_⟩, ⟨?_, ?_⟩, ⟨?_, ?_⟩, ⟨?_, ?_⟩⟩
  · intro e h
    simp [parse_mail_from_cmd, h]
  · intro s2 e hk h
    simp only [parse_mail_from_cmd, hk] at h
    split at h
    · rename_i heq
      cases h
      exact parse_nullspace_error _ _ heq
    · split at h
      · rename_i heq
        cases h
        exact parse_path_error _ _ heq
      · split at h
        · rename_i heq
          cases h
          exact parse_nullspace_error _ _ heq
        · split at h
          · cases h; rfl
          · simp at h
  · intro e h
    simp [parse_rcpt_to, h]
  · intro s2 e hk h
    simp only [parse_rcpt_to, hk] at h
    split at h
    · rename_i heq
      cases h
      exact parse_nullspace_error _ _ heq
    · split at h
      · rename_i heq
        cases h
        exact parse_path_error _ _ heq
      · split at h
        · rename_i heq
          cases h
          exact parse_nullspace_error _ _ heq
        · split at h
          · cases h; rfl
          · simp at h
  · intro h
    have h2 : (accept_literal_str s ['D', 'A', 'T', 'A']).1 = false := h
    simp [parse_data_cmd, h2]
  · intro e ht h
    have ht2 : (accept_literal_str s ['D', 'A', 'T', 'A']).1 = true := ht
    simp only [parse_data_cmd] at h
    rw [show ("DATA".toList : List Char) = ['D', 'A', 'T', 'A'] from rfl, ht2] at h
    simp only [Bool.true_eq_false, if_false] at h
    split at h
    · rename_i heq
      cases h
      exact parse_nullspace_error _ _ heq
    · split at h
      · cases h; rfl
      · simp at h
  · intro h
    have h2 : (accept_literal_str s ['H', 'E', 'L', 'O']).1 = false := h
    simp [parse_helo_cmd, h2]
  · intro e ht h
    have ht2 : (accept_literal_str s ['H', 'E', 'L', 'O']).1 = true := ht
    simp only [parse_helo_cmd] at h
    rw [show ("HELO".toList : List Char) = ['H', 'E', 'L', 'O'] from rfl, ht2] at h
    simp only [Bool.true_eq_false, if_false] at h
    split at h
    · rename_i heq
      cases h
      exact parse_whitespace_error _ _ heq
    · split at h
      · rename_i heq
        cases h
        exact parse_domain_error _ _ heq
      · split at h
        · rename_i heq
          cases h
          exact parse_nullspace_error _ _ heq
        · split at h
          · cases h; rfl
          · simp at h

theorem keyword_and_parameter_failures_distinct_witness :
    parse_mail_from_cmd (mkScanner "MAIL FRIM:<a@b.c>\n".toList) = .error .unrecognizedCommand
    ∧ parse_helo_cmd (mkScanner "HELOx\n".toList) ≠ .error .unrecognizedCommand := by
  constructor
  · exact (keyword_and_parameter_failures_distinct
      (mkScanner "MAIL FRIM:<a@b.c>\n".toList)).1.1 .unrecognizedCommand (by rfl)
  · intro hcontra
    have h := (keyword_and_parameter_failures_distinct
      (mkScanner "HELOx\n".toList)).2.2.2.2 .unrecognizedCommand (by rfl) hcontra
    cases h

/-! ## C9: scanner characterization lemmas -/

theorem mkScanner_rest (l : List Char) : (mkScanner l).rest = l.tail := by
  cases l with
  | nil => rfl
  | cons c t => simp [mkScanner_cons]

theorem classify_eq_char_iff (c : Char) : classify c = CHAR ↔ is_char_tok c = true := by
  unfold classify is_char_tok
  split_ifs with h1 h2 h3 h4
  · simp [SPACE, CHAR, h1]
  · simp [NEWLINE, CHAR, h1, h2]
  · simp [SPEC, CHAR, h1, h2, h3]
  · simp [CHAR, h1, h2, h3, h4]
  · simp [UNREC, CHAR, h1, h2, h3, h4]

/-- Characterization of `accept`: it succeeds and advances exactly when
the requested kind (where `0` means any) and spelling (where `none`
means any) both match the lookahead token. -/
theorem accept_eq (s : TokenScanner) (tt : Int) (sp : Option Char) :
    s.accept tt sp =
      if (tt = 0 ∨ tt = s.current.type) ∧ (∀ c, sp = some c → s.current.spelling = c)
      then (true, mkScanner s.rest) else (false, s) := by
  simp only [TokenScanner.accept]
  rcases sp with _ | c
  · by_cases h : tt ≠ 0 ∧ tt ≠ s.current.type
    · have h2 : ¬((tt = 0 ∨ tt = s.current.type)
          ∧ ∀ c : Char, (none : Option Char) = some c → s.current.spelling = c) := by
        rintro ⟨hor, _⟩
        rcases hor with h0 | hty
        · exact h.1 h0
        · exact h.2 hty
      simp [h, h2]
    · have h2 : tt = 0 ∨ tt = s.current.type := by
        push_neg at h
        by_cases h0 : tt = 0
        · exact Or.inl h0
        · exact Or.inr (h h0)
      simp [h, h2]
  · by_cases hc : c ≠ s.current.spelling
    · have h3 : ¬ s.current.spelling = c := fun hx => hc hx.symm
      simp [hc, h3]
    · push_neg at hc
      by_cases h : tt ≠ 0 ∧ tt ≠ s.current.type
      · have h2 : ¬((tt = 0 ∨ tt = s.current.type) ∧ s.current.spelling = c) := by
          rintro ⟨hor, _⟩
          rcases hor with h0 | hty
          · exact h.1 h0
          · exact h.2 hty
        simp [hc, h, h2]
      · have h2 : tt = 0 ∨ tt = s.current.type := by
          push_neg at h
          by_cases h0 : tt = 0
          · exact Or.inl h0
          · exact Or.inr (h h0)
        simp [hc, h, h2]

theorem accept_true_part2 (s : TokenScanner) (tt : Int) (sp : Option Char)
    (h : (s.accept tt sp).1 = true) : (s.accept tt sp).2 = mkScanner s.rest := by
  rw [accept_eq] at h ⊢
  split at h
  · split
    · rfl
    · simp_all
  · simp at h

theorem accept_true_type (s : TokenScanner) (tt : Int) (sp : Option Char)
    (h : (s.accept tt sp).1 = true) (h0 : tt ≠ 0) : s.current.type = tt := by
  rw [accept_eq] at h
  split at h
  · rename_i hcond
    rcases hcond.1 with ha | hb
    · exact absurd ha h0
    · exact hb.symm
  · simp at h

theorem accept_true_spelling (s : TokenScanner) (tt : Int) (c : Char)
    (h : (s.accept tt (some c)).1 = true) : s.current.spelling = c := by
  rw [accept_eq] at h
  split at h
  · rename_i hcond
    exact hcond.2 c rfl
  · simp at h

theorem accept_success (s : TokenScanner) (tt : Int) (sp : Option Char)
    (hty : tt = 0 ∨ tt = s.current.type)
    (hsp : ∀ c, sp = some c → s.current.spelling = c) :
    s.accept tt sp = (true, mkScanner s.rest) := by
  rw [accept_eq, if_pos ⟨hty, hsp⟩]

/-! ## C9: completeness of the grammar on rendered values -/

theorem parse_string_go_complete (cs : List Char) :
    ∀ (fuel : Nat) (acc : List Char) (tail : List Char),
      (∀ c ∈ cs, is_char_tok c = true) → char_stop tail → cs.length ≤ fuel →
      parse_string_go fuel acc (mkScanner (cs ++ tail)) = (acc ++ cs, mkScanner tail) := by
  induction cs with
  | nil =>
    intro fuel acc tail _ hstop _
    simp only [List.nil_append, List.append_nil]
    cases fuel with
    | zero => rfl
    | succ f =>
      cases tail with
      | nil => simp [parse_string_go, mkScanner_nil, EOF, CHAR]
      | cons c t =>
        simp only [char_stop] at hstop
        have hcl : ¬ classify c = CHAR := by
          rw [classify_eq_char_iff, hstop]
          simp
        simp [parse_string_go, mkScanner_cons, hcl]
  | cons c cs ih =>
    intro fuel acc tail hall hstop hfuel
    cases fuel with
    | zero => simp at hfuel
    | succ f =>
      have hc : is_char_tok c = true := hall c (by simp)
      have hcl : classify c = CHAR := (classify_eq_char_iff c).mpr hc
      rw [List.cons_append, mkScanner_cons]
      have hih := ih f (acc ++ [c]) tail (fun x hx => hall x (by simp [hx])) hstop
        (by simpa using hfuel)
      simp [parse_string_go, hcl, accept_eq, hih]

theorem parse_string_complete (u tail : List Char)
    (hu : u ≠ []) (hall : ∀ c ∈ u, is_char_tok c = true) (hstop : char_stop tail) :
    parse_string (mkScanner (u ++ tail)) = .ok (String.mk u, mkScanner tail) := by
  cases u with
  | nil => exact absurd rfl hu
  | cons c u2 =>
    have hc : is_char_tok c = true := hall c (by simp)
    have hcl : classify c = CHAR := (classify_eq_char_iff c).mpr hc
    have hfuel : u2.length ≤ (mkScanner (u2 ++ tail)).rest.length + 1 := by
      rw [mkScanner_rest]
      have := List.length_tail (u2 ++ tail)
      have h2 := List.length_append u2 tail
      omega
    have hgo := parse_string_go_complete u2 ((mkScanner (u2 ++ tail)).rest.length + 1)
      [c] tail (fun x hx => hall x (by simp [hx])) hstop hfuel
    rw [List.cons_append, mkScanner_cons]
    simp [parse_string, accept_eq, hcl, hgo]

theorem parse_letter_digit_string_go_complete (cs : List Char) :
    ∀ (fuel : Nat) (acc : List Char) (tail : List Char),
      (∀ c ∈ cs, is_ld_char c = true) → ld_stop tail → cs.length ≤ fuel →
      parse_letter_digit_string_go fuel acc (mkScanner (cs ++ tail))
        = .ok (acc ++ cs, mkScanner tail) := by
  induction cs with
  | nil =>
    intro fuel acc tail _ hstop _
    simp only [List.nil_append, List.append_nil]
    cases fuel with
    | zero => rfl
    | succ f =>
      cases tail with
      | nil =>
        simp [parse_letter_digit_string_go, mkScanner_nil,
          (by decide : ¬('\x00'.isAlpha = true ∨ '\x00'.isDigit = true))]
      | cons c t =>
        simp only [ld_stop] at hstop
        simp [parse_letter_digit_string_go, mkScanner_cons, hstop]
  | cons c cs ih =>
    intro fuel acc tail hall hstop hfuel
    cases fuel with
    | zero => simp at hfuel
    | succ f =>
      have hc := hall c (by simp)
      have hsplit : is_char_tok c = true ∧ (c.isAlpha = true ∨ c.isDigit = true) := by
        simpa [is_ld_char] using hc
      have hcl : classify c = CHAR := (classify_eq_char_iff c).mpr hsplit.1
      rw [List.cons_append, mkScanner_cons]
      have hih := ih f (acc ++ [c]) tail (fun x hx => hall x (by simp [hx])) hstop
        (by simpa using hfuel)
      simp [parse_letter_digit_string_go, parse_letter_digit, hcl, hsplit.2, accept_eq, hih]

theorem string_mk_append (a b : List Char) : String.mk a ++ String.mk b = String.mk (a ++ b) := rfl

theorem mk_dot_append (a b : List Char) :
    String.mk a ++ "." ++ String.mk b = String.mk (a ++ '.' :: b) := by
  have h1 : ("." : String) = String.mk ['.'] := rfl
  rw [h1, string_mk_append, string_mk_append]
  congr 1
  simp

theorem parse_letter_digit_string_complete (d : Char) (lds tail : List Char)
    (hd : is_ld_char d = true) (hall : ∀ c ∈ lds, is_ld_char c = true) (hstop : ld_stop tail) :
    parse_letter_digit_string (mkScanner (d :: lds ++ tail))
      = .ok (String.mk (d :: lds), mkScanner tail) := by
  have hsplit : is_char_tok d = true ∧ (d.isAlpha = true ∨ d.isDigit = true) := by
    simpa [is_ld_char] using hd
  have hcl : classify d = CHAR := (classify_eq_char_iff d).mpr hsplit.1
  have hpld : parse_letter_digit (mkScanner (d :: (lds ++ tail)))
      = .ok (d, mkScanner (lds ++ tail)) := by
    rw [mkScanner_cons]
    simp [parse_letter_digit, hcl, hsplit.2, accept_eq]
  rw [List.cons_append]
  simp only [parse_letter_digit_string, hpld]
  by_cases hch : (mkScanner (lds ++ tail)).current.type = CHAR
  · have hfuel : lds.length ≤ (mkScanner (lds ++ tail)).rest.length + 1 := by
      rw [mkScanner_rest]
      have := List.length_tail (lds ++ tail)
      have h2 := List.length_append lds tail
      omega
    have hgo := parse_letter_digit_string_go_complete lds
      ((mkScanner (lds ++ tail)).rest.length + 1) [d] tail hall hstop hfuel
    simp [hch, hgo]
  · have hlds : lds = [] := by
      cases lds with
      | nil => rfl
      | cons x xs =>
        exfalso
        apply hch
        have hx := hall x (by simp)
        have hxsplit : is_char_tok x = true ∧ (x.isAlpha = true ∨ x.isDigit = true) := by
          simpa [is_ld_char] using hx
        rw [List.cons_append, mkScanner_cons]
        exact (classify_eq_char_iff x).mpr hxsplit.1
    subst hlds
    simp only [List.nil_append] at hch
    simp [hch]

theorem parse_element_complete (l : Char) (lds tail : List Char)
    (hl : is_letter_char l = true) (hall : ∀ c ∈ lds, is_ld_char c = true)
    (hstop : ld_stop tail) :
    parse_element (mkScanner (l :: lds ++ tail)) = .ok (String.mk (l :: lds), mkScanner tail) := by
  have hsplit : is_char_tok l = true ∧ l.isAlpha = true := by
    simpa [is_letter_char] using hl
  have hcl : classify l = CHAR := (classify_eq_char_iff l).mpr hsplit.1
  have hletter : accept_letter (mkScanner (l :: (lds ++ tail)))
      = (some l, mkScanner (lds ++ tail)) := by
    rw [mkScanner_cons]
    simp [accept_letter, hcl, hsplit.2, accept_eq]
  rw [List.cons_append]
  simp only [parse_element, hletter]
  cases lds with
  | nil =>
    simp only [List.nil_append]
    by_cases hch : (mkScanner tail).current.type = CHAR
    · have hna : ¬((mkScanner tail).current.spelling.isAlpha = true
          ∨ (mkScanner tail).current.spelling.isDigit = true) := by
        cases tail with
        | nil =>
          rw [mkScanner_nil] at hch
          simp [EOF, CHAR] at hch
        | cons c t =>
          simp only [ld_stop] at hstop
          rw [mkScanner_cons]
          simpa using hstop
      simp [hch, hna]
    · simp [hch]
  | cons d lds2 =>
    have hd := hall d (by simp)
    have hdsplit : is_char_tok d = true ∧ (d.isAlpha = true ∨ d.isDigit = true) := by
      simpa [is_ld_char] using hd
    have hdch : (mkScanner (d :: lds2 ++ tail)).current.type = CHAR := by
      rw [List.cons_append, mkScanner_cons]
      exact (classify_eq_char_iff d).mpr hdsplit.1
    have hdsp : (mkScanner (d :: lds2 ++ tail)).current.spelling = d := by
      rw [List.cons_append, mkScanner_cons]
    have hdcl : classify d = CHAR := (classify_eq_char_iff d).mpr hdsplit.1
    have hpld := parse_letter_digit_string_complete d lds2 tail hd
      (fun x hx => hall x (by simp [hx])) hstop
    rw [List.cons_append] at hpld
    rw [mkScanner_cons] at hpld
    rw [hdcl] at hpld
    simp [mkScanner_cons, hdcl, hdsplit.2, hpld, string_mk_append]

theorem parse_domain_go_complete (d : List Char) (hd : IsDomainChars d) :
    ∀ fuel, d.length ≤ fuel →
      parse_domain_go fuel (mkScanner d) = .ok (String.mk d, mkScanner []) := by
  induction hd with
  | single l lds hl hall =>
    intro fuel hfuel
    cases fuel with
    | zero => simp at hfuel
    | succ f =>
      have hel := parse_element_complete l lds [] hl hall trivial
      rw [List.append_nil] at hel
      simp [parse_domain_go, hel, mkScanner_nil, EOF, SPEC]
  | dotted l lds d2 hl hall hd2 ih =>
    intro fuel hfuel
    cases fuel with
    | zero => simp at hfuel
    | succ f =>
      have hel := parse_element_complete l lds ('.' :: d2) hl hall
        (by simp [ld_stop])
      have hih : parse_domain_go f (mkScanner d2) = .ok (String.mk d2, mkScanner []) := by
        apply ih
        have : (l :: lds ++ '.' :: d2).length = lds.length + d2.length + 2 := by
          simp
          omega
        omega
      simp only [parse_domain_go]
      rw [hel]
      rw [mkScanner_cons]
      simp [accept_eq, (by decide : classify '.' = SPEC), hih, mk_dot_append]

theorem IsDomainChars_ne_nil (d : List Char) (hd : IsDomainChars d) : d ≠ [] := by
  cases hd <;> simp

theorem parse_mailbox_complete (u d : List Char)
    (hu : u ≠ []) (hall : ∀ c ∈ u, is_char_tok c = true) (hd : IsDomainChars d) :
    parse_mailbox (mkScanner (u ++ '@' :: d)) = .ok (⟨String.mk u, String.mk d⟩, mkScanner []) := by
  have hps := parse_string_complete u ('@' :: d) hu hall
    (by simp [char_stop]; decide)
  have hdom : parse_domain (mkScanner d) = .ok (String.mk d, mkScanner []) := by
    unfold parse_domain
    apply parse_domain_go_complete d hd
    rw [mkScanner_rest]
    cases d with
    | nil => exact absurd rfl (IsDomainChars_ne_nil [] hd)
    | cons x xs => simp
  simp [parse_mailbox, hps, mkScanner_cons, accept_eq,
    (by decide : classify '@' = SPEC), hdom]

/-! ## C9: soundness of the grammar -/

theorem SWf_accept (s : TokenScanner) (tt : Int) (sp : Option Char) (h : SWf s) :
    SWf ((s.accept tt sp).2) := by
  rw [accept_eq]
  split
  · exact ⟨s.rest, rfl⟩
  · exact h

theorem SWf_char_spelling (s : TokenScanner) (h : SWf s) (hty : s.current.type = CHAR) :
    is_char_tok s.current.spelling = true := by
  obtain ⟨cs, rfl⟩ := h
  cases cs with
  | nil =>
    rw [mkScanner_nil] at hty
    simp [EOF, CHAR] at hty
  | cons c t =>
    rw [mkScanner_cons] at hty ⊢
    exact (classify_eq_char_iff c).mp hty

theorem parse_string_go_sound (fuel : Nat) :
    ∀ (acc : List Char) (s : TokenScanner), SWf s → (∀ c ∈ acc, is_char_tok c = true) →
      (∀ c ∈ (parse_string_go fuel acc s).1, is_char_tok c = true)
      ∧ SWf (parse_string_go fuel acc s).2
      ∧ ∃ t, (parse_string_go fuel acc s).1 = acc ++ t := by
  induction fuel with
  | zero =>
    intro acc s hwf hacc
    exact ⟨hacc, hwf, [], by simp [parse_string_go]⟩
  | succ f ih =>
    intro acc s hwf hacc
    simp only [parse_string_go]
    split
    · rename_i hty
      have hsp := SWf_char_spelling s hwf hty
      have hacc2 : ∀ c ∈ acc ++ [s.current.spelling], is_char_tok c = true := by
        intro c hc
        rcases List.mem_append.mp hc with hx | hx
        · exact hacc c hx
        · simp at hx
          subst hx
          exact hsp
      obtain ⟨h1, h2, t, ht⟩ := ih (acc ++ [s.current.spelling]) _
        (SWf_accept s CHAR none hwf) hacc2
      exact ⟨h1, h2, [s.current.spelling] ++ t, by simp [ht]⟩
    · exact ⟨hacc, hwf, [], by simp⟩

theorem parse_string_sound (s : TokenScanner) (u : String) (s2 : TokenScanner)
    (hwf : SWf s) (h : parse_string s = .ok (u, s2)) :
    u.toList ≠ [] ∧ (∀ c ∈ u.toList, is_char_tok c = true) ∧ SWf s2 := by
  simp only [parse_string] at h
  split at h
  · rename_i hacc
    have hty : s.current.type = CHAR := accept_true_type s CHAR none hacc (by decide)
    have hsp := SWf_char_spelling s hwf hty
    obtain ⟨h1, h2, t, ht⟩ := parse_string_go_sound ((s.accept CHAR none).2.rest.length + 1)
      [s.current.spelling] ((s.accept CHAR none).2) (SWf_accept s CHAR none hwf)
      (by intro c hc; simp at hc; subst hc; exact hsp)
    cases h
    refine ⟨?_, h1, h2⟩
    show (String.mk _).data ≠ []
    simp only [ht]
    simp
  · cases h

theorem parse_letter_digit_sound (s : TokenScanner) (c : Char) (s2 : TokenScanner)
    (hwf : SWf s) (h : parse_letter_digit s = .ok (c, s2)) :
    is_ld_char c = true ∧ SWf s2 := by
  simp only [parse_letter_digit] at h
  split at h
  · cases h
  · rename_i hty
    split at h
    · rename_i halnum
      cases h
      push_neg at hty
      have hct := SWf_char_spelling s hwf hty
      constructor
      · simp only [is_ld_char]
        simp [hct, halnum]
      · exact SWf_accept s CHAR (some s.current.spelling) hwf
    · cases h

theorem parse_letter_digit_string_go_sound (fuel : Nat) :
    ∀ (acc : List Char) (s : TokenScanner) (cs : List Char) (s2 : TokenScanner), SWf s →
      (∀ c ∈ acc, is_ld_char c = true) →
      parse_letter_digit_string_go fuel acc s = .ok (cs, s2) →
      (∀ c ∈ cs, is_ld_char c = true) ∧ SWf s2 ∧ ∃ t, cs = acc ++ t := by
  induction fuel with
  | zero =>
    intro acc s cs s2 hwf hacc h
    simp only [parse_letter_digit_string_go] at h
    cases h
    exact ⟨hacc, hwf, [], by simp⟩
  | succ f ih =>
    intro acc s cs s2 hwf hacc h
    simp only [parse_letter_digit_string_go] at h
    split at h
    · split at h
      · cases h
      · rename_i c s3 heq
        obtain ⟨hld, hwf3⟩ := parse_letter_digit_sound s c s3 hwf heq
        have hacc2 : ∀ x ∈ acc ++ [c], is_ld_char x = true := by
          intro x hx
          rcases List.mem_append.mp hx with hy | hy
          · exact hacc x hy
          · simp at hy
            subst hy
            exact hld
        obtain ⟨h1, h2, t, ht⟩ := ih (acc ++ [c]) s3 cs s2 hwf3 hacc2 h
        exact ⟨h1, h2, [c] ++ t, by simp [ht]⟩
    · cases h
      exact ⟨hacc, hwf, [], by simp⟩

theorem parse_letter_digit_string_sound (s : TokenScanner) (u : String) (s2 : TokenScanner)
    (hwf : SWf s) (h : parse_letter_digit_string s = .ok (u, s2)) :
    (∀ c ∈ u.toList, is_ld_char c = true) ∧ u.toList ≠ [] ∧ SWf s2 := by
  simp only [parse_letter_digit_string] at h
  split at h
  · cases h
  · rename_i c s3 heq
    split at h
    · cases h
      obtain ⟨hld, hwf2⟩ := parse_letter_digit_sound s c s2 hwf heq
      refine ⟨?_, by simp, hwf2⟩
      intro x hx
      simp at hx
      subst hx
      exact hld
    · split at h
      · cases h
      · rename_i cs s4 heq2
        cases h
        obtain ⟨hld, hwf3⟩ := parse_letter_digit_sound s c s3 hwf heq
        obtain ⟨h1, h2, t, ht⟩ := parse_letter_digit_string_go_sound (s3.rest.length + 1)
          [c] s3 cs s2 hwf3 (by intro x hx; simp at hx; subst hx; exact hld) heq2
        refine ⟨h1, ?_, h2⟩
        show (String.mk cs).data ≠ []
        simp only [ht]
        simp

theorem accept_letter_some (s : TokenScanner) (l : Char) (s2 : TokenScanner)
    (h : accept_letter s = (some l, s2)) :
    s.current.type = CHAR ∧ s.current.spelling = l ∧ l.isAlpha = true
      ∧ s2 = mkScanner s.rest := by
  simp only [accept_letter] at h
  split at h
  · rename_i hcond
    have hadv : (s.accept CHAR (some s.current.spelling)).2 = mkScanner s.rest := by
      rw [accept_success s CHAR (some s.current.spelling) (Or.inr hcond.1.symm)
        (by intro c2 hc2; cases hc2; rfl)]
    rw [hadv] at h
    cases h
    exact ⟨hcond.1, rfl, hcond.2, rfl⟩
  · cases h

theorem parse_element_sound (s : TokenScanner) (el : String) (s2 : TokenScanner)
    (hwf : SWf s) (h : parse_element s = .ok (el, s2)) :
    (∃ l lds, el.toList = l :: lds ∧ is_letter_char l = true
      ∧ (∀ c ∈ lds, is_ld_char c = true)) ∧ SWf s2 := by
  simp only [parse_element] at h
  split at h
  · cases h
  · rename_i l s3 heq
    obtain ⟨hty, hsp, halpha, hadv⟩ := accept_letter_some s l s3 heq
    have hct : is_char_tok l = true := by
      rw [← hsp]
      exact SWf_char_spelling s hwf hty
    have hletter : is_letter_char l = true := by
      simp only [is_letter_char]
      simp [hct, halpha]
    split at h
    · cases h
      refine ⟨⟨l, [], rfl, hletter, by simp⟩, ?_⟩
      rw [hadv]
      exact ⟨s.rest, rfl⟩
    · split at h
      · split at h
        · cases h
        · rename_i lds s4 heq2
          cases h
          have hwf3 : SWf s3 := by
            rw [hadv]
            exact ⟨s.rest, rfl⟩
          obtain ⟨h1, h2, h3⟩ := parse_letter_digit_string_sound s3 lds s2 hwf3 heq2
          refine ⟨⟨l, lds.toList, ?_, hletter, h1⟩, h3⟩
          show (String.mk [l] ++ lds).data = l :: lds.data
          rw [show String.mk [l] ++ lds = String.mk ([l] ++ lds.data) from rfl]
          simp
      · cases h
        refine ⟨⟨l, [], rfl, hletter, by simp⟩, ?_⟩
        rw [hadv]
        exact ⟨s.rest, rfl⟩

theorem parse_domain_go_sound (fuel : Nat) :
    ∀ (s : TokenScanner) (d : String) (s2 : TokenScanner), SWf s →
      parse_domain_go fuel s = .ok (d, s2) → IsDomainChars d.toList ∧ SWf s2 := by
  induction fuel with
  | zero => intro s d s2 _ h; cases h
  | succ f ih =>
    intro s d s2 hwf h
    simp only [parse_domain_go] at h
    split at h
    · cases h
    · rename_i el s1 heq
      obtain ⟨⟨l, lds, hel, hl, hlds⟩, hwf1⟩ := parse_element_sound s el s1 hwf heq
      split at h
      · split at h
        · cases h
        · rename_i d2 s4 heq2
          cases h
          obtain ⟨hd2, hwf4⟩ := ih _ _ _ (SWf_accept s1 SPEC (some '.') hwf1) heq2
          refine ⟨?_, hwf4⟩
          have htl : (el ++ "." ++ d2).toList = el.toList ++ '.' :: d2.toList := by
            show (el ++ "." ++ d2).data = el.data ++ '.' :: d2.data
            rw [String.data_append, String.data_append]
            simp
          rw [htl, hel, List.cons_append]
          exact IsDomainChars.dotted l lds d2.toList hl hlds hd2
      · cases h
        refine ⟨?_, hwf1⟩
        show IsDomainChars d.data
        have hel2 : d.data = l :: lds := hel
        rw [hel2]
        exact IsDomainChars.single l lds hl hlds

theorem parse_domain_sound (s : TokenScanner) (d : String) (s2 : TokenScanner)
    (hwf : SWf s) (h : parse_domain s = .ok (d, s2)) :
    IsDomainChars d.toList ∧ SWf s2 :=
  parse_domain_go_sound _ _ _ _ hwf h

theorem parse_mailbox_sound (s : TokenScanner) (mb : MailBox) (s2 : TokenScanner)
    (hwf : SWf s) (h : parse_mailbox s = .ok (mb, s2)) :
    mb.user.toList ≠ [] ∧ (∀ c ∈ mb.user.toList, is_char_tok c = true)
      ∧ IsDomainChars mb.domain.toList := by
  simp only [parse_mailbox] at h
  split at h
  · cases h
  · rename_i user s1 hstr
    obtain ⟨hne, hall, hwf1⟩ := parse_string_sound s user s1 hwf hstr
    split at h
    · split at h
      · cases h
      · rename_i domain s3 hdom
        cases h
        obtain ⟨hd, _⟩ := parse_domain_sound _ _ _ (SWf_accept s1 SPEC (some '@') hwf1) hdom
        exact ⟨hne, hall, hd⟩
    · cases h

/-! ## C9: the round trip -/

/-- C9: for every input accepted by the `mailbox` rule, rendering the
parsed value as `local-part ++ "@" ++ domain` (the `MailBox.__str__`
format) and re-parsing the rendered string yields an equal mailbox
value, with the whole rendered string consumed. -/
theorem parse_mailbox_round_trip (input : List Char) (mb : MailBox) (s2 : TokenScanner)
    (h : parse_mailbox (mkScanner input) = .ok (mb, s2)) :
    parse_mailbox (mkScanner (MailBox.str mb).toList) = .ok (mb, mkScanner []) := by
  obtain ⟨hne, hall, hdom⟩ := parse_mailbox_sound _ _ _ ⟨input, rfl⟩ h
  have key := parse_mailbox_complete mb.user.toList mb.domain.toList hne hall hdom
  have hstr : (MailBox.str mb).toList = mb.user.toList ++ '@' :: mb.domain.toList := by
    show (mb.user ++ "@" ++ mb.domain).data = mb.user.data ++ '@' :: mb.domain.data
    rw [String.data_append, String.data_append,
      show ("@" : String).data = ['@'] from rfl]
    simp
  rw [hstr, key]
  rfl

theorem parse_mailbox_round_trip_witness :
    parse_mailbox (mkScanner (MailBox.str ⟨"u", "a.b.c"⟩).toList)
      = .ok (⟨"u", "a.b.c"⟩, mkScanner []) := by
  exact parse_mailbox_round_trip "u@a.b.c".toList ⟨"u", "a.b.c"⟩ (mkScanner []) (by rfl)

end SMTPServer
